import Mathlib

/-!
Verification development for the enclave storage service
(`src/Tee/NeoServiceLayer.Tee.Enclave/src/storage.rs`).

Shallow embedding conventions:
* Rust byte buffers (`&[u8]`, `Vec<u8>`) and string keys/secrets (`&str`,
  modelled by their byte sequence) are `List Nat`.
* The in-memory `HashMap`s of `StorageIndex` and the storage directory's
  files are association lists keyed by byte sequences.
* External black-box primitives (the `sha2` SHA-256 digest, the `ring`
  PBKDF2 key derivation and AES-256-GCM AEAD, the `lz4_flex` and `flate2`
  codecs) are modelled by executable functions that keep exactly the
  interface properties the storage code relies on (determinism,
  inverse compress/decompress, tag-checked authenticated encryption with
  a 12-byte nonce and 16-byte tag, collision-free key derivation).
* Randomness (the AES-GCM nonce, the fresh master key) is passed in as an
  explicit argument; wall-clock time is passed in as a `now : Nat`.
* Fallible filesystem calls that the claims depend on (`fs::remove_file`)
  are modelled with an explicit fault flag.
-/

/-- Byte sequences (`Vec<u8>` / `&[u8]` / `&str` contents). -/
abbrev Bytes := List Nat

/-- Association-list lookup, modelling `HashMap::get`. -/
def alistGet {α : Type} : List (Bytes × α) → Bytes → Option α
  | [], _ => none
  | (k', v) :: rest, k => if k' = k then some v else alistGet rest k

/-- Association-list removal, modelling `HashMap::remove`. -/
def alistRemove {α : Type} : List (Bytes × α) → Bytes → List (Bytes × α)
  | [], _ => []
  | (k', v) :: rest, k =>
    if k' = k then alistRemove rest k else (k', v) :: alistRemove rest k

/-- Association-list insertion, modelling `HashMap::insert`. -/
def alistInsert {α : Type} (m : List (Bytes × α)) (k : Bytes) (v : α) :
    List (Bytes × α) :=
  (k, v) :: alistRemove m k

/-- Association-list membership, modelling `HashMap::contains_key`. -/
def alistContains {α : Type} (m : List (Bytes × α)) (k : Bytes) : Bool :=
  (alistGet m k).isSome

theorem alistGet_insert_self {α : Type} (m : List (Bytes × α)) (k : Bytes) (v : α) :
    alistGet (alistInsert m k v) k = some v := by
  simp [alistInsert, alistGet]

theorem alistGet_remove_self {α : Type} (m : List (Bytes × α)) (k : Bytes) :
    alistGet (alistRemove m k) k = none := by
  induction m with
  | nil => simp [alistRemove, alistGet]
  | cons p rest ih =>
    obtain ⟨k', v⟩ := p
    by_cases h : k' = k
    · simp [alistRemove, h, ih]
    · simp [alistRemove, alistGet, h, ih]

/-- Modelled from the spec: the external SHA-256 digest (`sha2` crate),
an opaque deterministic 32-byte digest consumed as a black-box primitive;
the storage code relies only on it being a function of its input. -/
def sha256 (data : Bytes) : Bytes :=
  let h := data.foldl (fun acc b => (acc * 257 + b + 1) % (2 ^ 256)) 1
  (List.range 32).map (fun i => h / 256 ^ i % 256)

/-- Model of `hex::encode`: each byte becomes its two hex nibbles. -/
def hexEncode (bytes : Bytes) : Bytes :=
  bytes.flatMap (fun b => [b / 16, b % 16])

/-- `StorageIndex::key_to_file_path` (storage.rs:87-92): the file stem is
the hex SHA-256 of the key (the `.dat` suffix is carried by the directory
entry model). -/
def key_to_file_path (key : Bytes) : Bytes :=
  hexEncode (sha256 key)

/-- `CompressionType` (storage.rs:36-39). -/
inductive CompressionType
  | gzip
  | lz4
deriving DecidableEq, Repr

/-- Run-length encoder worker for the LZ4 model codec. -/
def rleGo (v cnt : Nat) : Bytes → Bytes
  | [] => [cnt, v]
  | x :: xs => if x = v then rleGo v (cnt + 1) xs else cnt :: v :: rleGo x 1 xs

/-- Run-length encoder for the LZ4 model codec. -/
def rleEncode : Bytes → Bytes
  | [] => []
  | x :: xs => rleGo x 1 xs

/-- Run-length decoder for the LZ4 model codec. -/
def rleDecode : Bytes → Bytes
  | [] => []
  | [_] => []
  | cnt :: v :: rest => List.replicate cnt v ++ rleDecode rest

theorem rleDecode_rleGo (xs : Bytes) : ∀ v cnt,
    rleDecode (rleGo v cnt xs) = List.replicate cnt v ++ xs := by
  induction xs with
  | nil => intro v cnt; simp [rleGo, rleDecode]
  | cons x xs ih =>
    intro v cnt
    by_cases h : x = v
    · subst h
      rw [rleGo, if_pos rfl, ih x (cnt + 1), List.replicate_succ' cnt x,
        List.append_assoc]
      simp
    · rw [rleGo, if_neg h, rleDecode, ih x 1]
      simp

theorem rleDecode_rleEncode (d : Bytes) : rleDecode (rleEncode d) = d := by
  cases d with
  | nil => rfl
  | cons x xs => rw [rleEncode, rleDecode_rleGo xs x 1]; simp

/-- Modelled from the spec: the external `lz4_flex::compress_prepend_size`,
a black-box codec prepending the decompressed size; modelled by a
run-length codec with the original length prepended, keeping the two
interface facts the storage code uses (it is invertible and may produce
output shorter or longer than its input). -/
def compress_prepend_size (d : Bytes) : Bytes :=
  d.length :: rleEncode d

/-- Modelled from the spec: the external
`lz4_flex::decompress_size_prepended`, a fallible inverse of
`compress_prepend_size`. -/
def decompress_size_prepended : Bytes → Option Bytes
  | [] => none
  | n :: rest => if (rleDecode rest).length = n then some (rleDecode rest) else none

theorem decompress_compress_lz4 (d : Bytes) :
    decompress_size_prepended (compress_prepend_size d) = some d := by
  simp [compress_prepend_size, decompress_size_prepended, rleDecode_rleEncode]

/-- Modelled from the spec: the external `flate2` gzip encoder, a second
black-box invertible codec kept distinct from the LZ4 model. -/
def gzip_compress (d : Bytes) : Bytes :=
  d.length :: d

/-- Modelled from the spec: the external `flate2` gzip decoder, a fallible
inverse of `gzip_compress`. -/
def gzip_decompress : Bytes → Option Bytes
  | [] => none
  | n :: rest => if rest.length = n then some rest else none

/-- `StorageService::compress_data` (storage.rs:371-382). -/
def compress_data (data : Bytes) : CompressionType → Bytes
  | CompressionType.gzip => gzip_compress data
  | CompressionType.lz4 => compress_prepend_size data

/-- `StorageService::decompress_data` (storage.rs:385-397). -/
def decompress_data (compressed : Bytes) : CompressionType → Option Bytes
  | CompressionType.gzip => gzip_decompress compressed
  | CompressionType.lz4 => decompress_size_prepended compressed

theorem decompress_compress_data (d : Bytes) (c : CompressionType) :
    decompress_data (compress_data d c) c = some d := by
  cases c with
  | gzip => simp [compress_data, decompress_data, gzip_compress, gzip_decompress]
  | lz4 => simp [compress_data, decompress_data, decompress_compress_lz4]

/-- Injective encoding of a byte sequence into a single natural number,
used by the ideal authentication-tag model. -/
def encodeList : Bytes → Nat
  | [] => 0
  | x :: xs => Nat.pair x (encodeList xs) + 1

theorem encodeList_injective : ∀ {a b : Bytes}, encodeList a = encodeList b → a = b := by
  intro a
  induction a with
  | nil =>
    intro b h
    cases b with
    | nil => rfl
    | cons y ys => simp [encodeList] at h
  | cons x xs ih =>
    intro b h
    cases b with
    | nil => simp [encodeList] at h
    | cons y ys =>
      rw [encodeList, encodeList, Nat.add_right_cancel_iff, Nat.pair_eq_pair] at h
      rw [h.1, ih h.2]

/-- Modelled from the spec: the 16-byte AES-256-GCM authentication tag
produced by `ring`'s `seal_in_place_append_tag`, idealized as
collision-free across (key, nonce, plaintext) triples — the property the
wrong-secret-rejection and tamper-detection contracts rely on. -/
def gcmTag (key nonce body : Bytes) : Bytes :=
  Nat.pair (encodeList key) (Nat.pair (encodeList nonce) (encodeList body))
    :: List.replicate 15 0

theorem gcmTag_length (key nonce body : Bytes) : (gcmTag key nonce body).length = 16 := by
  simp [gcmTag]

theorem gcmTag_key_injective {k1 k2 nonce body : Bytes}
    (h : gcmTag k1 nonce body = gcmTag k2 nonce body) : k1 = k2 := by
  have h1 := List.head_eq_of_cons_eq h
  rw [Nat.pair_eq_pair] at h1
  exact encodeList_injective h1.1

/-- Modelled from the spec: `StorageService::derive_encryption_key`
(storage.rs:486-503) — PBKDF2-HMAC-SHA256 (100 000 iterations, fixed
salt) over the concatenation of the master key's hex representation and
the caller secret, via the external `ring` crate; idealized as
collision-free, so for a fixed master key it is injective in the caller
secret. -/
def derive_encryption_key (crypto_key user_key : Bytes) : Bytes :=
  hexEncode crypto_key ++ user_key

theorem derive_encryption_key_injective {ck s1 s2 : Bytes}
    (h : derive_encryption_key ck s1 = derive_encryption_key ck s2) : s1 = s2 := by
  rw [derive_encryption_key, derive_encryption_key] at h
  exact List.append_cancel_left h

/-- Error kinds surfaced by the storage service; each constructor mirrors
one `anyhow!`/library error site of storage.rs. -/
inductive StorageError
  | emptyKey
  | sizeLimitExceeded
  | alreadyExists
  | filePathNotFound
  | keyNotFound
  | encryptedDataTooShort
  | decryptionFailed
  | decompressionFailed
  | integrityCheckFailed
  | ioError
deriving DecidableEq, Repr

/-- `StorageService::encrypt_data` (storage.rs:400-425): output is
`nonce(12) || ciphertext-with-tag`; the AEAD seal is modelled ideally
with the body passed through and the 16-byte tag appended. -/
def encrypt_data (crypto_key data user_key nonce : Bytes) : Bytes :=
  nonce ++ (data ++ gcmTag (derive_encryption_key crypto_key user_key) nonce data)

/-- `StorageService::decrypt_data` (storage.rs:428-451): rejects inputs
shorter than 28 bytes (12-byte nonce + 16-byte tag), splits off nonce and
tag, and fails unless the tag verifies under the derived key. -/
def decrypt_data (crypto_key encrypted user_key : Bytes) : Except StorageError Bytes :=
  if encrypted.length < 28 then Except.error StorageError.encryptedDataTooShort
  else if (encrypted.drop 12).drop ((encrypted.drop 12).length - 16)
      = gcmTag (derive_encryption_key crypto_key user_key) (encrypted.take 12)
          ((encrypted.drop 12).take ((encrypted.drop 12).length - 16)) then
    Except.ok ((encrypted.drop 12).take ((encrypted.drop 12).length - 16))
  else Except.error StorageError.decryptionFailed

theorem take_len_append (l₁ l₂ : Bytes) : (l₁ ++ l₂).take l₁.length = l₁ := by
  simp

theorem drop_len_append (l₁ l₂ : Bytes) : (l₁ ++ l₂).drop l₁.length = l₂ := by
  simp

theorem decrypt_encrypt (ck data uk nonce : Bytes) (h : nonce.length = 12) :
    decrypt_data ck (encrypt_data ck data uk nonce) uk = Except.ok data := by
  have hlen : (encrypt_data ck data uk nonce).length = 12 + (data.length + 16) := by
    simp [encrypt_data, gcmTag, h]
  rw [decrypt_data, if_neg (by rw [hlen]; omega)]
  have htake : (encrypt_data ck data uk nonce).take 12 = nonce := by
    rw [encrypt_data, ← h, take_len_append]
  have hdrop : (encrypt_data ck data uk nonce).drop 12 =
      data ++ gcmTag (derive_encryption_key ck uk) nonce data := by
    rw [encrypt_data, ← h, drop_len_append]
  rw [htake, hdrop]
  have hct : (data ++ gcmTag (derive_encryption_key ck uk) nonce data).length - 16
      = data.length := by
    simp [gcmTag_length]
  rw [hct, take_len_append, drop_len_append, if_pos rfl]

theorem decrypt_encrypt_wrong_key (ck data uk uk2 nonce : Bytes)
    (h : nonce.length = 12) (hne : uk2 ≠ uk) :
    decrypt_data ck (encrypt_data ck data uk nonce) uk2 =
      Except.error StorageError.decryptionFailed := by
  have hlen : (encrypt_data ck data uk nonce).length = 12 + (data.length + 16) := by
    simp [encrypt_data, gcmTag, h]
  rw [decrypt_data, if_neg (by rw [hlen]; omega)]
  have htake : (encrypt_data ck data uk nonce).take 12 = nonce := by
    rw [encrypt_data, ← h, take_len_append]
  have hdrop : (encrypt_data ck data uk nonce).drop 12 =
      data ++ gcmTag (derive_encryption_key ck uk) nonce data := by
    rw [encrypt_data, ← h, drop_len_append]
  rw [htake, hdrop]
  have hct : (data ++ gcmTag (derive_encryption_key ck uk) nonce data).length - 16
      = data.length := by
    simp [gcmTag_length]
  rw [hct, take_len_append, drop_len_append]
  rw [if_neg]
  intro heq
  exact hne (derive_encryption_key_injective (gcmTag_key_injective heq)).symm

/-- `StorageMetadata` (storage.rs:20-32); `hash` holds the hex-encoded
SHA-256 of the original plaintext. -/
structure StorageMetadata where
  key : Bytes
  size : Nat
  compressed_size : Option Nat
  created_at : Nat
  accessed_at : Nat
  modified_at : Nat
  compression : Option CompressionType
  encryption : Bool
  hash : Bytes
  access_count : Nat
deriving DecidableEq, Repr

/-- `StorageIndex` (storage.rs:53-57): metadata map plus the derived
key-to-file-path map. -/
structure StorageIndex where
  metadata : List (Bytes × StorageMetadata)
  key_to_path : List (Bytes × Bytes)
deriving DecidableEq, Repr

/-- The observable state a `StorageService` operation can touch: the
in-memory index, the `.dat` files of the storage directory (file stem to
content), and the persisted `index.json` snapshot written by
`save_index` (storage.rs:506-509). -/
structure StorageState where
  index : StorageIndex
  files : List (Bytes × Bytes)
  indexSnapshot : List (Bytes × StorageMetadata)
deriving DecidableEq, Repr

/-- The configuration fields of `StorageService` (storage.rs:96-103) that
the store/retrieve/delete paths read. -/
structure StorageService where
  crypto_key : Bytes
  enable_compression : Bool
  max_file_size : Nat
deriving DecidableEq, Repr

/-- The field values `StorageService::new` installs (storage.rs:129-137):
compression enabled and a 100 MiB size limit. -/
def StorageService.mkDefault (crypto_key : Bytes) : StorageService :=
  { crypto_key := crypto_key
    enable_compression := true
    max_file_size := 100 * 1024 * 1024 }

/-- The metadata record built by `store_data` (storage.rs:209-224). -/
def store_metadata_of (key data processed : Bytes) (ctype : Option CompressionType)
    (now : Nat) : StorageMetadata :=
  { key := key
    size := data.length
    compressed_size := if ctype.isSome then some processed.length else none
    created_at := now
    accessed_at := now
    modified_at := now
    compression := ctype
    encryption := true
    hash := hexEncode (sha256 data)
    access_count := 0 }

/-- The state after the success path of `store_data`
(storage.rs:198-232): ciphertext written to the key's deterministic path,
both index maps updated, and the index snapshot rewritten by
`save_index`. -/
def store_state_of (svc : StorageService) (st : StorageState)
    (key data processed : Bytes) (ctype : Option CompressionType)
    (encryption_key nonce : Bytes) (now : Nat) : StorageState :=
  { index :=
      { metadata := alistInsert st.index.metadata key
          (store_metadata_of key data processed ctype now)
        key_to_path := alistInsert st.index.key_to_path key (key_to_file_path key) }
    files := alistInsert st.files (key_to_file_path key)
      (encrypt_data svc.crypto_key processed encryption_key nonce)
    indexSnapshot := alistInsert st.index.metadata key
      (store_metadata_of key data processed ctype now) }

/-- `StorageService::store_data` (storage.rs:162-238). Checks in source
order: empty key, size limit, key already present; then optionally
LZ4-compresses (keeping the result only when strictly smaller), encrypts,
writes the file, records metadata and persists the index. Errors leave
the state untouched (all three checks precede any mutation in the
source). The fresh AES-GCM nonce and the wall clock are explicit
arguments. -/
def store_data (svc : StorageService) (st : StorageState)
    (key data encryption_key : Bytes) (compress : Bool) (nonce : Bytes)
    (now : Nat) : Except StorageError StorageMetadata × StorageState :=
  if key = [] then (Except.error StorageError.emptyKey, st)
  else if data.length > svc.max_file_size then
    (Except.error StorageError.sizeLimitExceeded, st)
  else if alistContains st.index.metadata key then
    (Except.error StorageError.alreadyExists, st)
  else if compress && svc.enable_compression then
    if (compress_data data CompressionType.lz4).length < data.length then
      (Except.ok (store_metadata_of key data (compress_data data CompressionType.lz4)
          (some CompressionType.lz4) now),
       store_state_of svc st key data (compress_data data CompressionType.lz4)
          (some CompressionType.lz4) encryption_key nonce now)
    else
      (Except.ok (store_metadata_of key data data none now),
       store_state_of svc st key data data none encryption_key nonce now)
  else
    (Except.ok (store_metadata_of key data data none now),
     store_state_of svc st key data data none encryption_key nonce now)

/-- The decompress-if-needed step of `retrieve_data` (storage.rs:261-265):
decompress with the metadata's algorithm tag when it is set, otherwise
pass the decrypted bytes through. -/
def decompress_step (md : StorageMetadata) (decrypted : Bytes) : Option Bytes :=
  match md.compression with
  | some ct => decompress_data decrypted ct
  | none => some decrypted

/-- `StorageService::retrieve_data` (storage.rs:241-282): path and
metadata lookups, file read, decrypt, decompress when the metadata tag is
set, integrity check against the stored hash, then access bookkeeping and
an index-snapshot rewrite. Every error path precedes the mutation, so
errors leave the state untouched. -/
def retrieve_data (svc : StorageService) (st : StorageState)
    (key encryption_key : Bytes) (now : Nat) :
    Except StorageError (Bytes × StorageState) :=
  if key = [] then Except.error StorageError.emptyKey
  else
    match alistGet st.index.key_to_path key with
    | none => Except.error StorageError.filePathNotFound
    | some file_path =>
      match alistGet st.index.metadata key with
      | none => Except.error StorageError.keyNotFound
      | some md =>
        match alistGet st.files file_path with
        | none => Except.error StorageError.ioError
        | some encrypted =>
          match decrypt_data svc.crypto_key encrypted encryption_key with
          | Except.error e => Except.error e
          | Except.ok decrypted =>
            match decompress_step md decrypted with
            | none => Except.error StorageError.decompressionFailed
            | some original =>
              if hexEncode (sha256 original) ≠ md.hash then
                Except.error StorageError.integrityCheckFailed
              else
                Except.ok (original,
                  { st with
                    index :=
                      { st.index with
                        metadata := alistInsert st.index.metadata key
                          { md with accessed_at := now,
                                    access_count := md.access_count + 1 } }
                    indexSnapshot := alistInsert st.index.metadata key
                      { md with accessed_at := now,
                                access_count := md.access_count + 1 } })

/-- `StorageService::delete_data` (storage.rs:285-313). The in-memory
metadata entry is removed first; the key-to-path entry is removed next;
the data file is removed only if it exists, and a failing
`fs::remove_file` (modelled by the `removeFileFails` flag) propagates the
error after the in-memory removals have already happened and before the
snapshot is rewritten. -/
def delete_data (st : StorageState) (key : Bytes) (removeFileFails : Bool) :
    Except StorageError Unit × StorageState :=
  if key = [] then (Except.error StorageError.emptyKey, st)
  else
    match alistGet st.index.metadata key with
    | none => (Except.error StorageError.keyNotFound, st)
    | some _ =>
      match alistGet st.index.key_to_path key with
      | none =>
        (Except.ok (),
         { st with
           index := { metadata := alistRemove st.index.metadata key
                      key_to_path := st.index.key_to_path }
           indexSnapshot := alistRemove st.index.metadata key })
      | some file_path =>
        if alistContains st.files file_path then
          if removeFileFails then
            (Except.error StorageError.ioError,
             { st with
               index := { metadata := alistRemove st.index.metadata key
                          key_to_path := alistRemove st.index.key_to_path key } })
          else
            (Except.ok (),
             { index := { metadata := alistRemove st.index.metadata key
                          key_to_path := alistRemove st.index.key_to_path key }
               files := alistRemove st.files file_path
               indexSnapshot := alistRemove st.index.metadata key })
        else
          (Except.ok (),
           { st with
             index := { metadata := alistRemove st.index.metadata key
                        key_to_path := alistRemove st.index.key_to_path key }
             indexSnapshot := alistRemove st.index.metadata key })

/-- Effect of `derive_master_key` on the `.master_key` file. -/
inductive KeyFileAction
  | unchanged
  | written (content : Bytes) (ownerOnly : Bool)
deriving DecidableEq, Repr

/-- `StorageService::derive_master_key` (storage.rs:454-483): an existing
32-byte key file is used as is; otherwise (missing file or any other
length) 32 fresh random bytes — passed in explicitly as `freshRandom` —
are written to the key file with owner-only (0600) permissions and used.
Returns the key together with the action taken on the key file. -/
def derive_master_key (existing : Option Bytes) (freshRandom : Bytes) :
    Bytes × KeyFileAction :=
  match existing with
  | some k =>
    if k.length = 32 then (k, KeyFileAction.unchanged)
    else (freshRandom, KeyFileAction.written freshRandom true)
  | none => (freshRandom, KeyFileAction.written freshRandom true)

/-- One entry of the storage directory as seen by the optimizer's
`fs::read_dir` walk: a `.dat` file (identified by its stem), some other
file (`index.json`, `.master_key`, ...), or a subdirectory. -/
inductive DirEntry
  | datFile (stem : Bytes) (size : Nat)
  | otherFile (name : Bytes) (size : Nat)
  | subdir (name : Bytes)
deriving DecidableEq, Repr

/-- The orphan test of `cleanup_orphaned_files` (storage.rs:901-905): a
`.dat` stem has a corresponding index entry when some metadata value's
key hashes to it. -/
def hasMetadataFor (index : List (Bytes × StorageMetadata)) (stem : Bytes) : Bool :=
  index.any (fun p => decide (hexEncode (sha256 p.2.key) = stem))

/-- `StorageService::cleanup_orphaned_files` (storage.rs:889-917):
deletes every `.dat` file whose stem matches no index entry, summing the
deleted sizes; all other entries are left in place. Returns the bytes
reclaimed and the surviving directory. -/
def cleanup_orphaned_files (index : List (Bytes × StorageMetadata)) :
    List DirEntry → Nat × List DirEntry
  | [] => (0, [])
  | DirEntry.datFile stem size :: rest =>
    if hasMetadataFor index stem then
      ((cleanup_orphaned_files index rest).1,
       DirEntry.datFile stem size :: (cleanup_orphaned_files index rest).2)
    else
      (size + (cleanup_orphaned_files index rest).1,
       (cleanup_orphaned_files index rest).2)
  | e :: rest =>
    ((cleanup_orphaned_files index rest).1, e :: (cleanup_orphaned_files index rest).2)

/-- `StorageService::optimize_compression` (storage.rs:920-934): counts
frequently accessed uncompressed records; it performs no mutation ("this
would trigger recompression in a real implementation"). -/
def optimize_compression (index : List (Bytes × StorageMetadata)) : Nat :=
  index.countP (fun p => decide (10 < p.2.access_count) && p.2.compression.isNone)

/-- `StorageService::consolidate_small_files` (storage.rs:937-947):
counts small, rarely accessed records; no mutation. -/
def consolidate_small_files (index : List (Bytes × StorageMetadata)) : Nat :=
  index.countP (fun p => decide (p.2.size < 1024) && decide (p.2.access_count < 5))

/-- `StorageService::archive_old_files` (storage.rs:950-965): counts
records unaccessed for more than 90 days with `access_count < 2` (the age
uses `saturating_sub`, hence truncated `Nat` subtraction); no mutation. -/
def archive_old_files (index : List (Bytes × StorageMetadata)) (now : Nat) : Nat :=
  index.countP (fun p =>
    decide (90 * 24 * 3600 < now - p.2.accessed_at) && decide (p.2.access_count < 2))

/-- `StorageOptimizationResults` (storage.rs:997-1005); the two
non-discrete fields (`fragmentation_reduced`, an `f64`, and
`optimization_time_ms`, wall-clock time) are outside the embedding. -/
structure StorageOptimizationResults where
  files_processed : Nat
  bytes_reclaimed : Nat
  compression_improved : Nat
  files_archived : Nat
deriving DecidableEq, Repr

/-- `StorageService::optimize_storage` (storage.rs:844-886): runs the
orphan cleanup (the only mutation), then the three advisory analyses,
and returns the report with the index and the surviving directory. -/
def optimize_storage (index : List (Bytes × StorageMetadata)) (dir : List DirEntry)
    (now : Nat) :
    StorageOptimizationResults × List (Bytes × StorageMetadata) × List DirEntry :=
  ({ files_processed := consolidate_small_files index
     bytes_reclaimed := (cleanup_orphaned_files index dir).1
     compression_improved := optimize_compression index
     files_archived := archive_old_files index now },
   index, (cleanup_orphaned_files index dir).2)

/-- Spec-side restatement for the optimizer frame claim: an entry
survives `optimize` exactly when it is not an orphaned `.dat` file. -/
def specKeepEntry (index : List (Bytes × StorageMetadata)) : DirEntry → Bool
  | DirEntry.datFile stem _ => hasMetadataFor index stem
  | _ => true

/-- Spec-side restatement for the optimizer frame claim: the bytes of the
orphaned `.dat` files, in directory order. -/
def specOrphanBytes (index : List (Bytes × StorageMetadata)) : List DirEntry → Nat
  | [] => 0
  | DirEntry.datFile stem size :: rest =>
    (if hasMetadataFor index stem then 0 else size) + specOrphanBytes index rest
  | _ :: rest => specOrphanBytes index rest

theorem cleanup_orphaned_files_spec (index : List (Bytes × StorageMetadata))
    (dir : List DirEntry) :
    cleanup_orphaned_files index dir =
      (specOrphanBytes index dir, dir.filter (specKeepEntry index)) := by
  induction dir with
  | nil => rfl
  | cons e rest ih =>
    cases e with
    | datFile stem size =>
      by_cases h : hasMetadataFor index stem
      · simp [cleanup_orphaned_files, specOrphanBytes, specKeepEntry, h, ih]
      · simp [cleanup_orphaned_files, specOrphanBytes, specKeepEntry, h, ih]
    | otherFile name size =>
      simp [cleanup_orphaned_files, specOrphanBytes, specKeepEntry, ih]
    | subdir name =>
      simp [cleanup_orphaned_files, specOrphanBytes, specKeepEntry, ih]

deriving instance DecidableEq for Except

/-- The state produced by the success path of `retrieve_data`
(storage.rs:273-281): the key's metadata gets its access bookkeeping
bumped and the index snapshot is rewritten. -/
def retrieve_ok_state (S : StorageState) (key : Bytes) (md : StorageMetadata)
    (now' : Nat) : StorageState :=
  { S with
    index := { S.index with
      metadata := alistInsert S.index.metadata key
        { md with accessed_at := now', access_count := md.access_count + 1 } }
    indexSnapshot := alistInsert S.index.metadata key
      { md with accessed_at := now', access_count := md.access_count + 1 } }

theorem retrieve_after_store_state (svc : StorageService) (st : StorageState)
    (key data ek nonce : Bytes) (now now' : Nat)
    (processed : Bytes) (ctype : Option CompressionType)
    (hn : nonce.length = 12) (hkey : ¬ key = [])
    (hct : ctype = none ∧ processed = data ∨
      ctype = some CompressionType.lz4 ∧
        processed = compress_data data CompressionType.lz4) :
    retrieve_data svc (store_state_of svc st key data processed ctype ek nonce now)
      key ek now' =
      Except.ok (data,
        retrieve_ok_state (store_state_of svc st key data processed ctype ek nonce now)
          key (store_metadata_of key data processed ctype now) now') := by
  rw [retrieve_data, if_neg hkey]
  have h1 : alistGet
      (store_state_of svc st key data processed ctype ek nonce now).index.key_to_path
      key = some (key_to_file_path key) := by
    simp [store_state_of, alistGet_insert_self]
  have h2 : alistGet
      (store_state_of svc st key data processed ctype ek nonce now).index.metadata
      key = some (store_metadata_of key data processed ctype now) := by
    simp [store_state_of, alistGet_insert_self]
  have h3 : alistGet
      (store_state_of svc st key data processed ctype ek nonce now).files
      (key_to_file_path key) =
      some (encrypt_data svc.crypto_key processed ek nonce) := by
    simp [store_state_of, alistGet_insert_self]
  simp only [h1, h2, h3, decrypt_encrypt svc.crypto_key processed ek nonce hn]
  rcases hct with ⟨hc, hp⟩ | ⟨hc, hp⟩
  · subst hc; subst hp
    simp [store_metadata_of, retrieve_ok_state, decompress_step]
  · subst hc; subst hp
    simp [store_metadata_of, retrieve_ok_state, decompress_step,
      decompress_compress_data]

/-- Claim C1: for every key, byte sequence and secret for which `store`
succeeds (with either value of the compress flag), a subsequent
`retrieve` with the same secret succeeds and returns exactly the stored
bytes. -/
theorem storage_store_retrieve_round_trip (svc : StorageService) (st : StorageState)
    (key data ek : Bytes) (compress : Bool) (nonce : Bytes) (now now' : Nat)
    (m : StorageMetadata) (st' : StorageState)
    (hn : nonce.length = 12)
    (h : store_data svc st key data ek compress nonce now = (Except.ok m, st')) :
    ∃ st'', retrieve_data svc st' key ek now' = Except.ok (data, st'') := by
  rw [store_data] at h
  by_cases hk : key = []
  · rw [if_pos hk] at h; simp at h
  rw [if_neg hk] at h
  by_cases hs : data.length > svc.max_file_size
  · rw [if_pos hs] at h; simp at h
  rw [if_neg hs] at h
  by_cases hc : alistContains st.index.metadata key = true
  · rw [if_pos hc] at h; simp at h
  rw [if_neg hc] at h
  by_cases hcc : (compress && svc.enable_compression) = true
  · rw [if_pos hcc] at h
    by_cases hlt : (compress_data data CompressionType.lz4).length < data.length
    · rw [if_pos hlt] at h
      rw [Prod.mk.injEq] at h
      rw [← h.2]
      exact ⟨_, retrieve_after_store_state svc st key data ek nonce now now' _ _ hn hk
        (Or.inr ⟨rfl, rfl⟩)⟩
    · rw [if_neg hlt] at h
      rw [Prod.mk.injEq] at h
      rw [← h.2]
      exact ⟨_, retrieve_after_store_state svc st key data ek nonce now now' _ _ hn hk
        (Or.inl ⟨rfl, rfl⟩)⟩
  · rw [if_neg hcc] at h
    rw [Prod.mk.injEq] at h
    rw [← h.2]
    exact ⟨_, retrieve_after_store_state svc st key data ek nonce now now' _ _ hn hk
      (Or.inl ⟨rfl, rfl⟩)⟩

/-- Master key fixture for concrete witnesses. -/
def ckW : Bytes := [1]

/-- Service fixture: the configuration `StorageService::new` installs. -/
def svcW : StorageService := StorageService.mkDefault ckW

/-- Empty storage state fixture. -/
def st0 : StorageState :=
  { index := { metadata := [], key_to_path := [] }, files := [], indexSnapshot := [] }

/-- Key fixture. -/
def kW : Bytes := [107]

/-- Data fixture (compressible: one run of equal bytes). -/
def dW : Bytes := [3, 3, 3, 3]

/-- Caller-secret fixture. -/
def ekW : Bytes := [9]

/-- Nonce fixture: 12 zero bytes. -/
def nW : Bytes := List.replicate 12 0

theorem storage_store_retrieve_round_trip_witness :
    (nW.length = 12 ∧
      store_data svcW st0 kW dW ekW false nW 0 =
        (Except.ok (store_metadata_of kW dW dW none 0),
         store_state_of svcW st0 kW dW dW none ekW nW 0)) ∧
    ∃ st'', retrieve_data svcW (store_state_of svcW st0 kW dW dW none ekW nW 0)
      kW ekW 1 = Except.ok (dW, st'') :=
  ⟨⟨by decide, by decide⟩,
   storage_store_retrieve_round_trip svcW st0 kW dW ekW false nW 0 1
     (store_metadata_of kW dW dW none 0)
     (store_state_of svcW st0 kW dW dW none ekW nW 0)
     (by decide) (by decide)⟩

/-- Claim C2: the stored metadata hash is the hex SHA-256 of the original
pre-compression plaintext; a successful retrieve returns bytes whose hex
SHA-256 equals the stored hash; and when the recomputed hash after
decrypt-and-decompress differs from the stored hash, retrieve fails with
the integrity error, which is distinct from the decryption failures, and
returns no bytes. -/
theorem storage_content_hash_integrity :
    (∀ (svc : StorageService) (st : StorageState) (key data ek : Bytes)
        (compress : Bool) (nonce : Bytes) (now : Nat) (m : StorageMetadata)
        (st' : StorageState),
      store_data svc st key data ek compress nonce now = (Except.ok m, st') →
      m.hash = hexEncode (sha256 data)) ∧
    (∀ (svc : StorageService) (st : StorageState) (key ek : Bytes) (now : Nat)
        (out : Bytes) (st'' : StorageState),
      retrieve_data svc st key ek now = Except.ok (out, st'') →
      ∃ md, alistGet st.index.metadata key = some md ∧
        hexEncode (sha256 out) = md.hash) ∧
    (∀ (svc : StorageService) (st : StorageState) (key ek : Bytes) (now : Nat)
        (fp : Bytes) (md : StorageMetadata) (enc dec orig : Bytes),
      ¬ key = [] →
      alistGet st.index.key_to_path key = some fp →
      alistGet st.index.metadata key = some md →
      alistGet st.files fp = some enc →
      decrypt_data svc.crypto_key enc ek = Except.ok dec →
      decompress_step md dec = some orig →
      hexEncode (sha256 orig) ≠ md.hash →
      retrieve_data svc st key ek now = Except.error StorageError.integrityCheckFailed) ∧
    StorageError.integrityCheckFailed ≠ StorageError.decryptionFailed ∧
    StorageError.integrityCheckFailed ≠ StorageError.encryptedDataTooShort := by
  refine ⟨?_, ?_, ?_, by decide, by decide⟩
  · intro svc st key data ek compress nonce now m st' h
    rw [store_data] at h
    by_cases hk : key = []
    · rw [if_pos hk] at h; simp at h
    rw [if_neg hk] at h
    by_cases hs : data.length > svc.max_file_size
    · rw [if_pos hs] at h; simp at h
    rw [if_neg hs] at h
    by_cases hc : alistContains st.index.metadata key = true
    · rw [if_pos hc] at h; simp at h
    rw [if_neg hc] at h
    by_cases hcc : (compress && svc.enable_compression) = true
    · rw [if_pos hcc] at h
      by_cases hlt : (compress_data data CompressionType.lz4).length < data.length
      · rw [if_pos hlt, Prod.mk.injEq] at h
        have := h.1
        rw [Except.ok.injEq] at this
        rw [← this, store_metadata_of]
      · rw [if_neg hlt, Prod.mk.injEq] at h
        have := h.1
        rw [Except.ok.injEq] at this
        rw [← this, store_metadata_of]
    · rw [if_neg hcc, Prod.mk.injEq] at h
      have := h.1
      rw [Except.ok.injEq] at this
      rw [← this, store_metadata_of]
  · intro svc st key ek now out st'' h
    rw [retrieve_data] at h
    split at h
    · simp at h
    split at h
    · simp at h
    rename_i fp hfp
    split at h
    · simp at h
    rename_i md hmd
    split at h
    · simp at h
    split at h
    · simp at h
    split at h
    · simp at h
    rename_i orig horig
    split at h
    · simp at h
    rename_i hhash
    rw [Except.ok.injEq, Prod.mk.injEq] at h
    exact ⟨md, hmd, by rw [← h.1]; exact not_not.mp hhash⟩
  · intro svc st key ek now fp md enc dec orig hk h1 h2 h3 h4 h5 h6
    rw [retrieve_data, if_neg hk]
    simp only [h1, h2, h3, h4, h5]
    rw [if_pos h6]

/-- Tampered-metadata fixture: the stored hash does not match the stored
content. -/
def mdT : StorageMetadata :=
  { key := kW
    size := 1
    compressed_size := none
    created_at := 0
    accessed_at := 0
    modified_at := 0
    compression := none
    encryption := true
    hash := [0, 0]
    access_count := 0 }

/-- File-stem fixture for `kW`. -/
def fpW : Bytes := key_to_file_path kW

/-- Ciphertext fixture: a one-byte record encrypted under `ekW`. -/
def encT : Bytes := encrypt_data ckW [5] ekW nW

/-- State fixture whose metadata hash disagrees with the stored bytes. -/
def stT : StorageState :=
  { index := { metadata := [(kW, mdT)], key_to_path := [(kW, fpW)] }
    files := [(fpW, encT)]
    indexSnapshot := [(kW, mdT)] }

theorem storage_content_hash_integrity_witness :
    ((store_data svcW st0 kW dW ekW false nW 0 =
        (Except.ok (store_metadata_of kW dW dW none 0),
         store_state_of svcW st0 kW dW dW none ekW nW 0) ∧
      (store_metadata_of kW dW dW none 0).hash = hexEncode (sha256 dW)) ∧
     (∃ md, alistGet (store_state_of svcW st0 kW dW dW none ekW nW 0).index.metadata
        kW = some md ∧ hexEncode (sha256 dW) = md.hash)) ∧
    retrieve_data svcW stT kW ekW 0 = Except.error StorageError.integrityCheckFailed :=
  ⟨⟨⟨by decide,
     storage_content_hash_integrity.1 svcW st0 kW dW ekW false nW 0
       (store_metadata_of kW dW dW none 0)
       (store_state_of svcW st0 kW dW dW none ekW nW 0) (by decide)⟩,
    storage_content_hash_integrity.2.1 svcW
      (store_state_of svcW st0 kW dW dW none ekW nW 0) kW ekW 1 dW
      (retrieve_ok_state (store_state_of svcW st0 kW dW dW none ekW nW 0) kW
        (store_metadata_of kW dW dW none 0) 1) (by decide)⟩,
   storage_content_hash_integrity.2.2.1 svcW stT kW ekW 0 fpW mdT encT [5] [5]
     (by decide) (by decide) (by decide) (by decide) (by decide) (by decide)
     (by decide)⟩

theorem store_data_ok_inv (svc : StorageService) (st : StorageState)
    (key data ek : Bytes) (compress : Bool) (nonce : Bytes) (now : Nat)
    (m : StorageMetadata) (st' : StorageState)
    (h : store_data svc st key data ek compress nonce now = (Except.ok m, st')) :
    ¬ key = [] ∧ ¬ data.length > svc.max_file_size ∧
    ¬ alistContains st.index.metadata key = true ∧
    (((compress && svc.enable_compression) = true ∧
        (compress_data data CompressionType.lz4).length < data.length ∧
        m = store_metadata_of key data (compress_data data CompressionType.lz4)
          (some CompressionType.lz4) now ∧
        st' = store_state_of svc st key data (compress_data data CompressionType.lz4)
          (some CompressionType.lz4) ek nonce now) ∨
      (m = store_metadata_of key data data none now ∧
        st' = store_state_of svc st key data data none ek nonce now)) := by
  rw [store_data] at h
  by_cases hk : key = []
  · rw [if_pos hk] at h; simp at h
  rw [if_neg hk] at h
  by_cases hs : data.length > svc.max_file_size
  · rw [if_pos hs] at h; simp at h
  rw [if_neg hs] at h
  by_cases hc : alistContains st.index.metadata key = true
  · rw [if_pos hc] at h; simp at h
  rw [if_neg hc] at h
  refine ⟨hk, hs, hc, ?_⟩
  by_cases hcc : (compress && svc.enable_compression) = true
  · rw [if_pos hcc] at h
    by_cases hlt : (compress_data data CompressionType.lz4).length < data.length
    · rw [if_pos hlt, Prod.mk.injEq, Except.ok.injEq] at h
      exact Or.inl ⟨hcc, hlt, h.1.symm, h.2.symm⟩
    · rw [if_neg hlt, Prod.mk.injEq, Except.ok.injEq] at h
      exact Or.inr ⟨h.1.symm, h.2.symm⟩
  · rw [if_neg hcc, Prod.mk.injEq, Except.ok.injEq] at h
    exact Or.inr ⟨h.1.symm, h.2.symm⟩

/-- Claim C3 (code bug evidence): when the key exists, its data file
exists, and `fs::remove_file` fails, `delete_data` returns the I/O error
yet the in-memory metadata entry is already gone, the file is still
present, and the index snapshot was not rewritten — the metadata removal
is silently kept despite the reported failure, so the two removals are
observably partial, contradicting the claimed atomic transition. -/
theorem storage_delete_file_error_keeps_metadata_removed :
    (delete_data stT kW true).1 = Except.error StorageError.ioError ∧
    alistGet (delete_data stT kW true).2.index.metadata kW = none ∧
    alistGet (delete_data stT kW true).2.files fpW = some encT ∧
    (delete_data stT kW true).2.indexSnapshot = [(kW, mdT)] := by
  decide

/-- Claim C9: `delete_data` succeeds when the key's data file is already
missing from disk — the `file_path.exists()` guard skips the removal, the
index entries are removed, the snapshot is rewritten, and no I/O error is
reported (for either value of the removal-fault flag, which can only fire
on an existing file). -/
theorem storage_delete_succeeds_when_file_missing (st : StorageState)
    (key : Bytes) (md : StorageMetadata) (fp : Bytes) (fault : Bool)
    (hk : ¬ key = [])
    (hmd : alistGet st.index.metadata key = some md)
    (hfp : alistGet st.index.key_to_path key = some fp)
    (hfile : alistContains st.files fp = false) :
    delete_data st key fault =
      (Except.ok (),
       { st with
         index := { metadata := alistRemove st.index.metadata key
                    key_to_path := alistRemove st.index.key_to_path key }
         indexSnapshot := alistRemove st.index.metadata key }) := by
  rw [delete_data, if_neg hk]
  simp only [hmd, hfp, hfile]
  simp

/-- State fixture: key indexed but its data file missing from disk. -/
def stMiss : StorageState :=
  { index := { metadata := [(kW, mdT)], key_to_path := [(kW, fpW)] }
    files := []
    indexSnapshot := [(kW, mdT)] }

theorem storage_delete_succeeds_when_file_missing_witness :
    alistContains stMiss.files fpW = false ∧
    delete_data stMiss kW true =
      (Except.ok (),
       { stMiss with
         index := { metadata := alistRemove stMiss.index.metadata kW
                    key_to_path := alistRemove stMiss.index.key_to_path kW }
         indexSnapshot := alistRemove stMiss.index.metadata kW }) :=
  ⟨by decide,
   storage_delete_succeeds_when_file_missing stMiss kW mdT fpW true
     (by decide) (by decide) (by decide) (by decide)⟩

/-- Claim C4: the three precondition failures of `store` (empty key,
key already present, data over the size limit) fail fast with their
distinct errors and leave the state — files, index, and index snapshot —
exactly as it was; the constructor's size limit is 100 MiB. -/
theorem storage_store_precondition_failures :
    (∀ (svc : StorageService) (st : StorageState) (data ek : Bytes)
        (compress : Bool) (nonce : Bytes) (now : Nat),
      store_data svc st [] data ek compress nonce now =
        (Except.error StorageError.emptyKey, st)) ∧
    (∀ (svc : StorageService) (st : StorageState) (key data ek : Bytes)
        (compress : Bool) (nonce : Bytes) (now : Nat),
      ¬ key = [] → data.length > svc.max_file_size →
      store_data svc st key data ek compress nonce now =
        (Except.error StorageError.sizeLimitExceeded, st)) ∧
    (∀ (svc : StorageService) (st : StorageState) (key data ek : Bytes)
        (compress : Bool) (nonce : Bytes) (now : Nat),
      ¬ key = [] → ¬ data.length > svc.max_file_size →
      alistContains st.index.metadata key = true →
      store_data svc st key data ek compress nonce now =
        (Except.error StorageError.alreadyExists, st)) ∧
    (∀ ck : Bytes, (StorageService.mkDefault ck).max_file_size = 100 * 1024 * 1024) := by
  refine ⟨?_, ?_, ?_, fun ck => rfl⟩
  · intro svc st data ek compress nonce now
    rw [store_data, if_pos rfl]
  · intro svc st key data ek compress nonce now hk hs
    rw [store_data, if_neg hk, if_pos hs]
  · intro svc st key data ek compress nonce now hk hs hc
    rw [store_data, if_neg hk, if_neg hs, if_pos hc]

/-- Small-limit service fixture for the size-bound witness. -/
def svcSmall : StorageService :=
  { crypto_key := ckW, enable_compression := true, max_file_size := 2 }

theorem storage_store_precondition_failures_witness :
    store_data svcW st0 [] dW ekW false nW 0 =
      (Except.error StorageError.emptyKey, st0) ∧
    ([1, 2, 3] : Bytes).length > svcSmall.max_file_size ∧
    store_data svcSmall st0 kW [1, 2, 3] ekW false nW 0 =
      (Except.error StorageError.sizeLimitExceeded, st0) ∧
    alistContains stT.index.metadata kW = true ∧
    store_data svcW stT kW dW ekW false nW 0 =
      (Except.error StorageError.alreadyExists, stT) :=
  ⟨storage_store_precondition_failures.1 svcW st0 dW ekW false nW 0,
   by decide,
   storage_store_precondition_failures.2.1 svcSmall st0 kW [1, 2, 3] ekW false nW 0
     (by decide) (by decide),
   by decide,
   storage_store_precondition_failures.2.2.1 svcW stT kW dW ekW false nW 0
     (by decide) (by decide) (by decide)⟩

theorem retrieve_after_store_wrong_key (svc : StorageService) (st : StorageState)
    (key data ek ek2 nonce : Bytes) (now now' : Nat)
    (processed : Bytes) (ctype : Option CompressionType)
    (hn : nonce.length = 12) (hkey : ¬ key = []) (hne : ek2 ≠ ek) :
    retrieve_data svc (store_state_of svc st key data processed ctype ek nonce now)
      key ek2 now' = Except.error StorageError.decryptionFailed := by
  rw [retrieve_data, if_neg hkey]
  have h1 : alistGet
      (store_state_of svc st key data processed ctype ek nonce now).index.key_to_path
      key = some (key_to_file_path key) := by
    simp [store_state_of, alistGet_insert_self]
  have h2 : alistGet
      (store_state_of svc st key data processed ctype ek nonce now).index.metadata
      key = some (store_metadata_of key data processed ctype now) := by
    simp [store_state_of, alistGet_insert_self]
  have h3 : alistGet
      (store_state_of svc st key data processed ctype ek nonce now).files
      (key_to_file_path key) =
      some (encrypt_data svc.crypto_key processed ek nonce) := by
    simp [store_state_of, alistGet_insert_self]
  simp only [h1, h2, h3,
    decrypt_encrypt_wrong_key svc.crypto_key processed ek ek2 nonce hn hne]

/-- Claim C5: `decrypt_data` rejects every blob shorter than 28 bytes
(12-byte nonce plus 16-byte tag) and every blob whose authentication tag
does not verify under the derived key, returning an error and no
plaintext; in particular a retrieve with a secret different from the one
used at store time fails with the decryption-failure error. -/
theorem storage_decrypt_rejection :
    (∀ (ck blob s : Bytes), blob.length < 28 →
      decrypt_data ck blob s = Except.error StorageError.encryptedDataTooShort) ∧
    (∀ (ck blob s : Bytes), ¬ blob.length < 28 →
      (blob.drop 12).drop ((blob.drop 12).length - 16) ≠
        gcmTag (derive_encryption_key ck s) (blob.take 12)
          ((blob.drop 12).take ((blob.drop 12).length - 16)) →
      decrypt_data ck blob s = Except.error StorageError.decryptionFailed) ∧
    (∀ (svc : StorageService) (st : StorageState) (key data ek ek2 : Bytes)
        (compress : Bool) (nonce : Bytes) (now now' : Nat)
        (m : StorageMetadata) (st' : StorageState),
      nonce.length = 12 → ek2 ≠ ek →
      store_data svc st key data ek compress nonce now = (Except.ok m, st') →
      retrieve_data svc st' key ek2 now' =
        Except.error StorageError.decryptionFailed) := by
  refine ⟨?_, ?_, ?_⟩
  · intro ck blob s h
    rw [decrypt_data, if_pos h]
  · intro ck blob s h1 h2
    rw [decrypt_data, if_neg h1, if_neg h2]
  · intro svc st key data ek ek2 compress nonce now now' m st' hn hne h
    obtain ⟨hk, -, -, hres⟩ := store_data_ok_inv svc st key data ek compress nonce now m st' h
    rcases hres with ⟨-, -, -, hst⟩ | ⟨-, hst⟩ <;> rw [hst] <;>
      exact retrieve_after_store_wrong_key svc st key data ek ek2 nonce now now' _ _
        hn hk hne

theorem storage_decrypt_rejection_witness :
    (([1, 2, 3] : Bytes).length < 28 ∧
      decrypt_data ckW [1, 2, 3] ekW = Except.error StorageError.encryptedDataTooShort) ∧
    decrypt_data ckW (List.replicate 28 0) ekW =
      Except.error StorageError.decryptionFailed ∧
    retrieve_data svcW (store_state_of svcW st0 kW dW dW none ekW nW 0) kW [8] 1 =
      Except.error StorageError.decryptionFailed :=
  ⟨⟨by decide, storage_decrypt_rejection.1 ckW [1, 2, 3] ekW (by decide)⟩,
   storage_decrypt_rejection.2.1 ckW (List.replicate 28 0) ekW (by decide) (by decide),
   storage_decrypt_rejection.2.2 svcW st0 kW dW ekW [8] false nW 0 1
     (store_metadata_of kW dW dW none 0)
     (store_state_of svcW st0 kW dW dW none ekW nW 0)
     (by decide) (by decide) (by decide)⟩

/-- Claim C6: compression is attempted only when the caller requests it
and is kept only when the compressed form is strictly smaller than the
input, in which case `compressed_size` records the compressed length and
the compressed bytes are what gets encrypted and stored; otherwise the
original bytes are stored uncompressed with `compression = None` and no
`compressed_size`. -/
theorem storage_compression_policy (svc : StorageService) (st : StorageState)
    (key data ek : Bytes) (compress : Bool) (nonce : Bytes) (now : Nat)
    (m : StorageMetadata) (st' : StorageState)
    (h : store_data svc st key data ek compress nonce now = (Except.ok m, st')) :
    (compress = false → m.compression = none) ∧
    (m.compression = none → m.compressed_size = none ∧
      alistGet st'.files (key_to_file_path key) =
        some (encrypt_data svc.crypto_key data ek nonce)) ∧
    (∀ ct, m.compression = some ct →
      ct = CompressionType.lz4 ∧ compress = true ∧
      (compress_data data CompressionType.lz4).length < data.length ∧
      m.compressed_size = some (compress_data data CompressionType.lz4).length ∧
      alistGet st'.files (key_to_file_path key) =
        some (encrypt_data svc.crypto_key (compress_data data CompressionType.lz4)
          ek nonce)) := by
  obtain ⟨-, -, -, hres⟩ := store_data_ok_inv svc st key data ek compress nonce now m st' h
  rcases hres with ⟨hcc, hlt, hm, hst⟩ | ⟨hm, hst⟩
  · subst hm; subst hst
    refine ⟨?_, ?_, ?_⟩
    · intro hcf
      rw [hcf] at hcc
      simp at hcc
    · intro habs
      simp [store_metadata_of] at habs
    · intro ct hct
      rw [store_metadata_of] at hct
      simp only [Option.some.injEq] at hct
      refine ⟨hct.symm, (Bool.and_eq_true compress svc.enable_compression).mp hcc
        |>.1, hlt, by simp [store_metadata_of], ?_⟩
      simp [store_state_of, alistGet_insert_self]
  · subst hm; subst hst
    refine ⟨fun _ => rfl, ?_, ?_⟩
    · intro _
      refine ⟨rfl, ?_⟩
      simp [store_state_of, alistGet_insert_self]
    · intro ct hct
      simp [store_metadata_of] at hct

theorem storage_compression_policy_witness :
    store_data svcW st0 kW dW ekW true nW 0 =
      (Except.ok (store_metadata_of kW dW (compress_data dW CompressionType.lz4)
          (some CompressionType.lz4) 0),
       store_state_of svcW st0 kW dW (compress_data dW CompressionType.lz4)
          (some CompressionType.lz4) ekW nW 0) ∧
    (∀ ct, (store_metadata_of kW dW (compress_data dW CompressionType.lz4)
        (some CompressionType.lz4) 0).compression = some ct →
      ct = CompressionType.lz4 ∧ true = true ∧
      (compress_data dW CompressionType.lz4).length < dW.length ∧
      (store_metadata_of kW dW (compress_data dW CompressionType.lz4)
        (some CompressionType.lz4) 0).compressed_size =
          some (compress_data dW CompressionType.lz4).length ∧
      alistGet (store_state_of svcW st0 kW dW (compress_data dW CompressionType.lz4)
          (some CompressionType.lz4) ekW nW 0).files (key_to_file_path kW) =
        some (encrypt_data svcW.crypto_key (compress_data dW CompressionType.lz4)
          ekW nW)) :=
  ⟨by decide,
   (storage_compression_policy svcW st0 kW dW ekW true nW 0
     (store_metadata_of kW dW (compress_data dW CompressionType.lz4)
       (some CompressionType.lz4) 0)
     (store_state_of svcW st0 kW dW (compress_data dW CompressionType.lz4)
       (some CompressionType.lz4) ekW nW 0) (by decide)).2.2⟩

/-- Claim C7: master-key acquisition uses an existing exactly-32-byte key
file unchanged; a key file of any other length is overwritten with the 32
fresh random bytes (the old key is lost); a missing key file leads to the
fresh 32-byte key being generated and written with owner-only
permissions. -/
theorem storage_master_key_acquisition (existing : Option Bytes) (fresh : Bytes)
    (hf : fresh.length = 32) :
    (∀ k, existing = some k → k.length = 32 →
      derive_master_key existing fresh = (k, KeyFileAction.unchanged)) ∧
    (∀ k, existing = some k → ¬ k.length = 32 →
      derive_master_key existing fresh = (fresh, KeyFileAction.written fresh true) ∧
      (derive_master_key existing fresh).1.length = 32) ∧
    (existing = none →
      derive_master_key existing fresh = (fresh, KeyFileAction.written fresh true) ∧
      (derive_master_key existing fresh).1.length = 32) := by
  refine ⟨?_, ?_, ?_⟩
  · intro k hk h32
    subst hk
    simp [derive_master_key, h32]
  · intro k hk h32
    subst hk
    simp [derive_master_key, h32, hf]
  · intro hk
    subst hk
    simp [derive_master_key, hf]

theorem storage_master_key_acquisition_witness :
    (List.replicate 32 7 : Bytes).length = 32 ∧
    derive_master_key (some (List.replicate 32 1)) (List.replicate 32 7) =
      (List.replicate 32 1, KeyFileAction.unchanged) ∧
    derive_master_key (some [1, 2]) (List.replicate 32 7) =
      (List.replicate 32 7, KeyFileAction.written (List.replicate 32 7) true) ∧
    derive_master_key none (List.replicate 32 7) =
      (List.replicate 32 7, KeyFileAction.written (List.replicate 32 7) true) :=
  ⟨by decide,
   (storage_master_key_acquisition (some (List.replicate 32 1))
     (List.replicate 32 7) (by decide)).1 (List.replicate 32 1) rfl (by decide),
   ((storage_master_key_acquisition (some [1, 2])
     (List.replicate 32 7) (by decide)).2.1 [1, 2] rfl (by decide)).1,
   ((storage_master_key_acquisition none (List.replicate 32 7) (by decide)).2.2
     rfl).1⟩

/-- Claim C8: `optimize` performs exactly one destructive action — it
deletes precisely the `.dat` directory entries with no corresponding
index entry, reporting their byte sizes as reclaimed — while the
recompression, consolidation, and archival analyses only produce counts:
the index is returned unchanged and every non-orphan directory entry
survives. -/
theorem storage_optimize_only_removes_orphans
    (index : List (Bytes × StorageMetadata)) (dir : List DirEntry) (now : Nat) :
    (optimize_storage index dir now).2.1 = index ∧
    (optimize_storage index dir now).2.2 = dir.filter (specKeepEntry index) ∧
    (optimize_storage index dir now).1.bytes_reclaimed = specOrphanBytes index dir := by
  refine ⟨rfl, ?_, ?_⟩
  · show (cleanup_orphaned_files index dir).2 = dir.filter (specKeepEntry index)
    rw [cleanup_orphaned_files_spec]
  · show (cleanup_orphaned_files index dir).1 = specOrphanBytes index dir
    rw [cleanup_orphaned_files_spec]

/-- Claim C10: every metadata record created through the public store
operation carries either no compression tag or the LZ4 tag — never Gzip —
and the caller's only control is the boolean compress flag. -/
theorem storage_store_never_gzip (svc : StorageService) (st : StorageState)
    (key data ek : Bytes) (compress : Bool) (nonce : Bytes) (now : Nat)
    (m : StorageMetadata) (st' : StorageState)
    (h : store_data svc st key data ek compress nonce now = (Except.ok m, st')) :
    (m.compression = none ∨ m.compression = some CompressionType.lz4) ∧
    m.compression ≠ some CompressionType.gzip := by
  obtain ⟨-, -, -, hres⟩ := store_data_ok_inv svc st key data ek compress nonce now m st' h
  rcases hres with ⟨-, -, hm, -⟩ | ⟨hm, -⟩ <;> subst hm <;>
    simp [store_metadata_of]

theorem storage_store_never_gzip_witness :
    store_data svcW st0 kW dW ekW true nW 0 =
      (Except.ok (store_metadata_of kW dW (compress_data dW CompressionType.lz4)
          (some CompressionType.lz4) 0),
       store_state_of svcW st0 kW dW (compress_data dW CompressionType.lz4)
          (some CompressionType.lz4) ekW nW 0) ∧
    ((store_metadata_of kW dW (compress_data dW CompressionType.lz4)
        (some CompressionType.lz4) 0).compression = none ∨
      (store_metadata_of kW dW (compress_data dW CompressionType.lz4)
        (some CompressionType.lz4) 0).compression = some CompressionType.lz4) ∧
    (store_metadata_of kW dW (compress_data dW CompressionType.lz4)
      (some CompressionType.lz4) 0).compression ≠ some CompressionType.gzip :=
  ⟨by decide,
   (storage_store_never_gzip svcW st0 kW dW ekW true nW 0
     (store_metadata_of kW dW (compress_data dW CompressionType.lz4)
       (some CompressionType.lz4) 0)
     (store_state_of svcW st0 kW dW (compress_data dW CompressionType.lz4)
       (some CompressionType.lz4) ekW nW 0) (by decide)).1,
   (storage_store_never_gzip svcW st0 kW dW ekW true nW 0
     (store_metadata_of kW dW (compress_data dW CompressionType.lz4)
       (some CompressionType.lz4) 0)
     (store_state_of svcW st0 kW dW (compress_data dW CompressionType.lz4)
       (some CompressionType.lz4) ekW nW 0) (by decide)).2⟩
